import Mathlib

/-!
Verification of the `bitstream` bit-level I/O engine (invokr/bitstream).

The repository is a single C++ class `bitstream` that packs and unpacks
values of 1..32 bits into a contiguous array of fixed-width words, with a
bit cursor, one-shot mode/buffer setters and a sticky error status.  The
sources hold several revisions of `bitstream.hpp`; the complete revision
(the second one in `src/unnamed/part_000`, whose out-of-line constructors
are `src/unnamed/part_002`) uses `typedef uint32_t word_t`, so the word
width is 32 bits and all cursor/size arithmetic is `uint32_t` arithmetic,
modelled here on `Nat` with explicit reduction modulo `2^32 = 4294967296`.

Storage words are modelled as a `List Nat` of 32-bit values; a null buffer
pointer is `Option.none`.  The `assert(...)` statements of the source are
modelled by returning `Option.none` (debug abort) from the stateful
operations.  `memcpy` through `reinterpret_cast<char*>(mBuffer)` is
modelled as byte stores into the little-endian byte view of the words.
-/

/-- C++ `bitstream::mode` (part_000 lines 232-237). -/
inductive mode where
  | io_unset
  | io_reader
  | io_writer
deriving DecidableEq

/-- C++ `bitstream::error` (part_000 lines 239-244): `none` = nothing wrong,
`redef` = trying to redefine buffer or type, `size` = buffer size would overflow. -/
inductive error where
  | none
  | redef
  | size
deriving DecidableEq

/-- C++ `bitstream::masks` (part_000 lines 250-265): declared `uint64_t masks[64]`
with 56 initializers `0x0, 0x1, 0x3, ...` (entry `i` equals `2^i - 1` for
`i < 56`); the remaining 8 entries are zero-initialized. -/
def masks (i : Nat) : Nat := if i < 56 then 2 ^ i - 1 else 0

/-- C++ `bitstream::verify_size` (part_000 lines 526-529):
`static size_t size_bits_max = (2^32) - 1; return (size * 8) + 1 > size_bits_max;`.
In C++ `2^32` is XOR, so `size_bits_max = (2 xor 32) - 1 = 33`.  The parameter is
`uint32_t` and `(size*8)+1` is computed in `uint32_t`, wrapping modulo `2^32`. -/
def verify_size (size : Nat) : Bool := ((size * 8) % 4294967296 + 1) % 4294967296 > 33

/-- The `bitstream` class state (part_000 lines 516-523).  `mBuffer` is
`Option.none` for a null `word_t*`; words are 32-bit values. -/
structure bitstream where
  mError : error
  mMode : mode
  mBuffer : Option (List Nat)
  mBufferBytes : Nat
  mBufferBits : Nat
  mPos : Nat
  mOwnsBuffer : Bool
deriving DecidableEq

namespace bitstream

/-- Start word index of `write`/`read`: `mPos / bitSize` with `bitSize = 32`. -/
def start_index (pos : Nat) : Nat := pos / 32

/-- End word index of `write`/`read`: `(mPos + bits - 1) / bitSize`, computed in
`uint32_t`, so `mPos + bits - 1` wraps modulo `2^32` (it underflows when
`mPos + bits = 0`). -/
def end_index (pos bits : Nat) : Nat := ((pos + bits + 4294967295) % 4294967296) / 32

/-- The word-level body of `bitstream::write` (part_000 lines 437-455), acting on
the buffer and cursor: returns the updated words and updated `mPos`.
`data << shift` is a `uint32_t` shift (result reduced mod `2^32`); the index of
`masks` in the straddling branch is `bits - (bitSize - shift)` computed in
`uint32_t`, i.e. `(bits + shift - 32) mod 2^32`. -/
def write_core (buf : List Nat) (pos bits data : Nat) : List Nat × Nat :=
  let start := start_index pos
  let e := end_index pos bits
  let shift := pos % 32
  if start = e then
    (buf.set start ((buf.getD start 0 &&& masks shift) ||| ((data <<< shift) % 4294967296)),
      (pos + bits) % 4294967296)
  else
    let b1 := buf.set start ((buf.getD start 0 &&& masks shift) ||| ((data <<< shift) % 4294967296))
    let b2 := b1.set e ((data >>> (32 - shift)) &&& masks ((bits + shift + 4294967264) % 4294967296))
    (b2, (pos + bits) % 4294967296)

/-- The word-level body of `bitstream::write` of the `src/unnamed/part_001`
revision (lines 224-242).  The single-word branch is identical to part_000; in
the straddling branch it writes
`mBuffer[start] = (mBuffer[start] & masks[shift]) | ((data & masks[bitSize - shift]) << shift)`
and `mBuffer[end] = data << (bitSize - shift)`. -/
def write_core_p001 (buf : List Nat) (pos bits data : Nat) : List Nat × Nat :=
  let start := start_index pos
  let e := end_index pos bits
  let shift := pos % 32
  if start = e then
    (buf.set start ((buf.getD start 0 &&& masks shift) ||| ((data <<< shift) % 4294967296)),
      (pos + bits) % 4294967296)
  else
    let b1 := buf.set start
      ((buf.getD start 0 &&& masks shift) ||| (((data &&& masks (32 - shift)) <<< shift) % 4294967296))
    let b2 := b1.set e ((data <<< (32 - shift)) % 4294967296)
    (b2, (pos + bits) % 4294967296)

/-- The word-level body of `bitstream::read` (part_000 lines 480-499): returns
the value read and the updated `mPos`. -/
def read_core (buf : List Nat) (pos bits : Nat) : Nat × Nat :=
  let start := start_index pos
  let e := end_index pos bits
  let shift := pos % 32
  let ret :=
    if start = e then
      (buf.getD start 0 >>> shift) &&& masks bits
    else
      ((buf.getD start 0 >>> shift) ||| ((buf.getD e 0 <<< (32 - shift)) % 4294967296)) &&& masks bits
  (ret, (pos + bits) % 4294967296)

/-- A byte store into the little-endian byte view of the word array:
`reinterpret_cast<char*>(mBuffer)[idx] = b`.  Byte `idx` is bits
`8*(idx % 4) .. 8*(idx % 4)+7` of word `idx / 4`. -/
def setByte (buf : List Nat) (idx b : Nat) : List Nat :=
  buf.set (idx / 4)
    ((buf.getD (idx / 4) 0 &&& (4294967295 - (255 <<< (8 * (idx % 4)))))
      ||| ((b <<< (8 * (idx % 4))) % 4294967296))

/-- A byte load from the little-endian byte view of the word array:
`reinterpret_cast<char*>(mBuffer)[idx]`. -/
def getByte (buf : List Nat) (idx : Nat) : Nat :=
  (buf.getD (idx / 4) 0 >>> (8 * (idx % 4))) &&& 255

/-- `memcpy(&(reinterpret_cast<char*>(mBuffer)[off]), data, size)`: the fast path
of `bitstream::write_bytes` (part_000 line 465), copying the bytes of `data`
into the byte view of the words starting at byte offset `off`. -/
def memcpy_write (buf : List Nat) (off : Nat) (data : List Nat) : List Nat :=
  match data with
  | [] => buf
  | b :: rest => memcpy_write (setByte buf off b) (off + 1) rest

/-- `memcpy(dest, &(reinterpret_cast<char*>(mBuffer)[off]), bytes)`: the fast
path of `bitstream::read_bytes` (part_000 line 509). -/
def memcpy_read (buf : List Nat) (off bytes : Nat) : List Nat :=
  match bytes with
  | 0 => []
  | n + 1 => getByte buf off :: memcpy_read buf (off + 1) n

/-- Sign extension of a `char` to the `uint32_t` parameter of `write`:
the slow path of `write_bytes` calls `write(8, data[i])` with `data` of type
`const char*`, so a byte `b ≥ 128` becomes `2^32 - 256 + b`. -/
def signext (b : Nat) : Nat := if b < 128 then b else 4294967040 + b

/-- The slow path of `bitstream::write_bytes` (part_000 lines 467-469):
`for (i = 0; i < size; ++i) write(8, data[i]);` at the word level. -/
def write_bytes_slow (buf : List Nat) (pos : Nat) (data : List Nat) : List Nat × Nat :=
  match data with
  | [] => (buf, pos)
  | b :: rest =>
    let r := write_core buf pos 8 (signext b)
    write_bytes_slow r.1 r.2 rest

/-- The slow path of `bitstream::read_bytes` (part_000 lines 511-513):
`for (i = 0; i < bytes; ++i) dest[i] = (int8_t)read(8);` at the word level. -/
def read_bytes_slow (buf : List Nat) (pos bytes : Nat) : List Nat × Nat :=
  match bytes with
  | 0 => ([], pos)
  | n + 1 =>
    let r := read_core buf pos 8
    let rest := read_bytes_slow buf r.2 n
    (r.1 :: rest.1, rest.2)

/-- The default constructor `bitstream::bitstream()` (part_002 lines 16-18). -/
def init : bitstream :=
  { mError := error.none, mMode := mode.io_unset, mBuffer := Option.none,
    mBufferBytes := 0, mBufferBits := 0, mPos := 0, mOwnsBuffer := false }

/-- `bitstream::bitstream(word_t* buffer, size_t size, mode m)` (part_002
lines 20-30): fields are initialized to the bound buffer with
`mBufferBytes = size`, `mBufferBits = size*8` (truncated to `uint32_t`), then
`verify_size(size)` (the `size_t` argument truncated to the `uint32_t`
parameter) is checked; on failure the error is set and the buffer discarded. -/
def from_buffer (buffer : List Nat) (size : Nat) (m : mode) : bitstream :=
  let s : bitstream :=
    { mError := error.none, mMode := m, mBuffer := Option.some buffer,
      mBufferBytes := size % 4294967296, mBufferBits := (size * 8) % 4294967296,
      mPos := 0, mOwnsBuffer := false }
  if verify_size (size % 4294967296) then s
  else { s with mError := error.size, mBuffer := Option.none, mBufferBytes := 0, mBufferBits := 0 }

/-- `bitstream::bitstream(const std::string& data)` (part_002 lines 32-46).
`data` is the byte sequence of the string.  On success it allocates
`mBufferBytes = (data.size() + 3) / 4 + 1` words (modelled zero-initialized),
sets `mBufferBits = mBufferBytes * 8` and copies the bytes in. -/
def from_string (data : List Nat) : bitstream :=
  if !verify_size (data.length % 4294967296) then
    { mError := error.size, mMode := mode.io_reader, mBuffer := Option.none,
      mBufferBytes := 0, mBufferBits := 0, mPos := 0, mOwnsBuffer := true }
  else
    let nWords := ((data.length + 3) / 4 + 1) % 4294967296
    { mError := error.none, mMode := mode.io_reader,
      mBuffer := Option.some (memcpy_write (List.replicate nWords 0) 0 data),
      mBufferBytes := nWords, mBufferBits := (nWords * 8) % 4294967296,
      mPos := 0, mOwnsBuffer := true }

/-- `bitstream::bitstream(const uint32_t size)` (part_002 lines 48-54):
allocates `size` words in writer mode (modelled zero-initialized; the C++
buffer is uninitialized), then checks `verify_size(size)`; on failure only the
error is set, the buffer stays allocated. -/
def alloc (size : Nat) : bitstream :=
  { mError := if verify_size (size % 4294967296) then error.none else error.size,
    mMode := mode.io_writer, mBuffer := Option.some (List.replicate (size % 4294967296) 0),
    mBufferBytes := size % 4294967296, mBufferBits := (size % 4294967296 * 8) % 4294967296,
    mPos := 0, mOwnsBuffer := true }

/-- `bitstream::set_mode` of the canonical revision (part_000 lines 350-357):
rejects with `error::redef` when the mode is already set, otherwise assigns
the requested mode. -/
def set_mode (s : bitstream) (io_mode : mode) : bitstream :=
  if s.mMode ≠ mode.io_unset then { s with mError := error.redef }
  else { s with mMode := io_mode }

/-- `bitstream::set_mode` of the `src/unnamed/part_001` revision (lines
162-169): the guard is the same, but the assignment is
`this->mMode = mode::io_unset;` instead of the requested mode. -/
def set_mode_p001 (s : bitstream) (io_mode : mode) : bitstream :=
  if s.mMode ≠ mode.io_unset then { s with mError := error.redef }
  else { s with mMode := mode.io_unset }

/-- `bitstream::set_mode` of the first revision in `src/unnamed/part_000`
(lines 133-140): `if (mMode == mode::io_unset) { mError = redef; return; }
this->mMode = mode::io_unset;`. -/
def set_mode_rev0 (s : bitstream) (io_mode : mode) : bitstream :=
  if s.mMode = mode.io_unset then { s with mError := error.redef }
  else { s with mMode := mode.io_unset }

/-- `bitstream::set_buffer` (part_000 lines 380-390): rejects with
`error::redef` when `mBuffer` is non-null, otherwise binds the buffer, sets
`mBufferBytes = size`, `mBufferBits = size*8` (`uint32_t` arithmetic) and
resets `mPos` to 0. -/
def set_buffer (s : bitstream) (buffer : List Nat) (size : Nat) : bitstream :=
  if s.mBuffer ≠ Option.none then { s with mError := error.redef }
  else
    { s with mBuffer := Option.some buffer, mBufferBytes := size % 4294967296,
             mBufferBits := (size % 4294967296 * 8) % 4294967296, mPos := 0 }

/-- `bitstream::seek` (part_000 lines 423-426): `assert(position < mBufferBits);
mPos = position;`.  The assertion (debug abort) is modelled as `Option.none`. -/
def seek (s : bitstream) (position : Nat) : Option bitstream :=
  if position < s.mBufferBits then Option.some { s with mPos := position }
  else Option.none

/-- `bitstream::write` (part_000 lines 437-455).  The three `assert`s (no
pending error, writer mode, `bits <= 32`) and the dereference of a null
`mBuffer` are modelled as `Option.none`; otherwise the word-level body
`write_core` runs on the buffer and cursor. -/
def write (s : bitstream) (bits data : Nat) : Option bitstream :=
  if s.mError = error.none ∧ s.mMode = mode.io_writer ∧ bits ≤ 32 then
    match s.mBuffer with
    | Option.none => Option.none
    | Option.some buf =>
      let r := write_core buf s.mPos bits data
      Option.some { s with mBuffer := Option.some r.1, mPos := r.2 }
  else Option.none

/-- `bitstream::read` (part_000 lines 480-499), with the `assert`s (no pending
error, reader mode, `bits <= 32`) and null-buffer dereference as `Option.none`. -/
def read (s : bitstream) (bits : Nat) : Option (Nat × bitstream) :=
  if s.mError = error.none ∧ s.mMode = mode.io_reader ∧ bits ≤ 32 then
    match s.mBuffer with
    | Option.none => Option.none
    | Option.some buf =>
      let r := read_core buf s.mPos bits
      Option.some (r.1, { s with mPos := r.2 })
  else Option.none

/-- `bitstream::write_bytes` (part_000 lines 463-471).  When the cursor is
byte-aligned it performs a `memcpy` into the byte view of the buffer and does
not touch `mPos`; otherwise it issues `write(8, data[i])` for each byte (whose
asserts are those of `write`). -/
def write_bytes (s : bitstream) (data : List Nat) : Option bitstream :=
  match s.mBuffer with
  | Option.none => Option.none
  | Option.some buf =>
    if s.mPos % 8 = 0 then
      Option.some { s with mBuffer := Option.some (memcpy_write buf (s.mPos / 8) data) }
    else if s.mError = error.none ∧ s.mMode = mode.io_writer then
      let r := write_bytes_slow buf s.mPos data
      Option.some { s with mBuffer := Option.some r.1, mPos := r.2 }
    else Option.none

/-- `bitstream::read_bytes` (part_000 lines 507-515).  When the cursor is
byte-aligned it copies bytes out of the byte view of the buffer and does not
touch `mPos`; otherwise it issues `read(8)` per byte. -/
def read_bytes (s : bitstream) (bytes : Nat) : Option (List Nat × bitstream) :=
  match s.mBuffer with
  | Option.none => Option.none
  | Option.some buf =>
    if s.mPos % 8 = 0 then
      Option.some (memcpy_read buf (s.mPos / 8) bytes, s)
    else if s.mError = error.none ∧ s.mMode = mode.io_reader then
      let r := read_bytes_slow buf s.mPos bytes
      Option.some (r.1, { s with mPos := r.2 })
    else Option.none

/-- A freshly prepared writer: default-construct, `set_mode(io_writer)`,
`set_buffer(buf, 4)` with a one-word buffer, giving `mBufferBits = 32`. -/
def demoW : bitstream := set_buffer (set_mode init mode.io_writer) [0] 4

/-- A freshly prepared reader over a one-word buffer (`mBufferBits = 32`). -/
def demoR : bitstream := set_buffer (set_mode init mode.io_reader) [0] 4

/-- Two successive 32-bit writes on `demoW` (capacity 32 bits). -/
def demoW2 : Option bitstream := Option.bind (write demoW 32 0) (fun s => write s 32 0)

/-- The storage has no set bits at or above bit position `pos`: the word
holding `pos` is zero from bit `pos % 32` up, and all later words are zero. -/
def zeroAbove (buf : List Nat) (pos : Nat) : Prop :=
  buf.getD (pos / 32) 0 < 2 ^ (pos % 32) ∧
    ∀ i < buf.length, pos / 32 < i → buf.getD i 0 = 0

instance (buf : List Nat) (pos : Nat) : Decidable (zeroAbove buf pos) := by
  unfold zeroAbove
  infer_instance

/-! ## Theorems -/

/-- **C2** (code bug).  `verify_size` was meant to reject sizes whose `size*8`
overflows the 32-bit bit-count domain, but `(2^32) - 1` is C++ XOR (value 33)
and the comparison accepts large sizes: construction from a buffer with the
non-overflowing size 1 yields `error::size` with `mBufferBits = 0`, while the
overflowing size `2^29 + 5` (whose `size*8 = 2^32 + 40` wraps to 40) yields
`error::none` with `mBufferBits = 40`.  The writer-allocating constructor
rejects size 1 the same way. -/
theorem verify_size_misclassifies :
    (from_buffer [0] 1 mode.io_reader).mError = error.size ∧
    (from_buffer [0] 1 mode.io_reader).mBufferBits = 0 ∧
    (from_buffer [0] 536870917 mode.io_reader).mError = error.none ∧
    (from_buffer [0] 536870917 mode.io_reader).mBufferBits = 40 ∧
    (alloc 1).mError = error.size := by
  decide

/-- **C3** (code bug).  After a first `set_mode(io_writer)` on a fresh cursor,
the canonical revision (part_000 lines 350-357) sets the mode as the claim
states, but the part_001 revision assigns `io_unset` instead of the requested
mode, and the first part_000 revision raises `error::redef` on the fresh
cursor and leaves the mode unset. -/
theorem set_mode_variants_disagree :
    (set_mode init mode.io_writer).mMode = mode.io_writer ∧
    (set_mode init mode.io_writer).mError = error.none ∧
    (set_mode_p001 init mode.io_writer).mMode = mode.io_unset ∧
    (set_mode_p001 init mode.io_writer).mError = error.none ∧
    (set_mode_rev0 init mode.io_writer).mMode = mode.io_unset ∧
    (set_mode_rev0 init mode.io_writer).mError = error.redef := by
  decide

/-- **C5** (code bug).  On the byte-aligned fast path `write_bytes` and
`read_bytes` never advance `mPos`: writing one byte at the aligned cursor 0
leaves the cursor at 0 (the claim requires 8), and likewise for `read_bytes`;
on the unaligned slow path (cursor 1) the cursor does advance by `8 * length`. -/
theorem bytes_fast_path_cursor_stuck :
    Option.map mPos (write_bytes demoW [5]) = Option.some 0 ∧
    Option.map (fun r => r.2.mPos) (read_bytes demoR 1) = Option.some 0 ∧
    Option.map mPos (Option.bind (seek demoW 1) (fun s => write_bytes s [5])) =
      Option.some 9 ∧
    Option.map (fun r => r.2.mPos) (Option.bind (seek demoR 1) (fun s => read_bytes s 1)) =
      Option.some 9 := by
  decide

/-- **C4** (counterexample).  A reachable cursor state violates the claimed
invariant: on a fresh writer over one word (`mBufferBits = 32`) two successive
32-bit writes are both accepted (no operation is rejected) and leave
`mPos = 64 > 32 = mBufferBits`. -/
theorem cursor_exceeds_capacity :
    Option.map mPos demoW2 = Option.some 64 ∧
    Option.map mBufferBits demoW2 = Option.some 32 := by
  decide

/-- **C7** (counterexample).  At the byte-aligned cursor 0 over the one-word
buffer `[0xFFFFFFFF]`, `write_bytes` of the single byte 1 memcpy-stores the
byte (word becomes `0xFFFFFF01`), while the same byte written via
`write(8, 1)` clears the rest of the word (word becomes 1): the buffer
contents are not identical. -/
theorem write_bytes_alignment_mismatch :
    Option.map mBuffer (write_bytes (set_buffer (set_mode init mode.io_writer) [4294967295] 4) [1]) ≠
    Option.map mBuffer (write (set_buffer (set_mode init mode.io_writer) [4294967295] 4) 8 1) := by
  decide

/-- **C9** (counterexample).  The two `write` revisions are not extensionally
equal: at cursor 16 writing 32 bits of `0xAABBCCDD` into `[0, 0]`, part_000
stores `[0xCCDD0000, 0x0000AABB]` while part_001 stores
`[0xCCDD0000, 0xCCDD0000]`. -/
theorem write_revisions_differ :
    write_core [0, 0] 16 32 2864434397 = ([3437035520, 43707], 48) ∧
    write_core_p001 [0, 0] 16 32 2864434397 = ([3437035520, 3437035520], 48) ∧
    write_core [0, 0] 16 32 2864434397 ≠ write_core_p001 [0, 0] 16 32 2864434397 := by
  decide

/-- **C10** (counterexample).  `write(0, v)` is not a safe no-op on storage:
at the unaligned cursor 1 over `[0xFFFFFFFF]` it rewrites the word to 1
(`(w & masks[1]) | (0 << 1)`), and at the word-aligned cursor 0 the end-word
index `(mPos + bits - 1) / 32` underflows in `uint32_t` to `134217727`, which
is out of bounds for the one-word buffer. -/
theorem zero_bits_not_safe :
    write_core [4294967295] 1 0 0 = ([1], 1) ∧
    [1] ≠ [4294967295] ∧
    end_index 0 0 = 134217727 ∧ ¬ 134217727 < 1 := by
  decide

/-- The cursor result of `write` is unconditionally `mPos + bits` (mod `2^32`):
no capacity check is performed. -/
theorem write_core_snd (buf : List Nat) (pos bits data : Nat) :
    (write_core buf pos bits data).2 = (pos + bits) % 4294967296 := by
  by_cases h : start_index pos = end_index pos bits <;> simp [write_core, h]

/-- The cursor result of `read` is unconditionally `mPos + bits` (mod `2^32`). -/
theorem read_core_snd (buf : List Nat) (pos bits : Nat) :
    (read_core buf pos bits).2 = (pos + bits) % 4294967296 := by
  simp [read_core]

/-- **C6** (confirmed).  `set_buffer` is one-shot: with storage already bound
(non-null `mBuffer`) it only sets `error::redef`, leaving buffer, sizes, cursor
and mode untouched; on an unbound cursor it binds the buffer, computes the
sizes and resets the cursor to 0. -/
theorem set_buffer_one_shot (s : bitstream) (buffer : List Nat) (size : Nat) :
    (s.mBuffer ≠ Option.none →
      set_buffer s buffer size = { s with mError := error.redef }) ∧
    (s.mBuffer = Option.none →
      set_buffer s buffer size =
        { s with mBuffer := Option.some buffer, mBufferBytes := size % 4294967296,
                 mBufferBits := (size % 4294967296 * 8) % 4294967296, mPos := 0 }) := by
  constructor
  · intro h
    simp [set_buffer, h]
  · intro h
    simp [set_buffer, h]

/-- Witness for C6: the bound `demoW` rejects a rebinding with `error::redef`
and no other change; a fresh cursor accepts the first binding. -/
theorem set_buffer_one_shot_witness :
    set_buffer demoW [7] 2 = { demoW with mError := error.redef } ∧
    set_buffer init [7] 2 =
      { init with mBuffer := Option.some [7], mBufferBytes := 2 % 4294967296,
                  mBufferBits := (2 % 4294967296 * 8) % 4294967296, mPos := 0 } :=
  ⟨(set_buffer_one_shot demoW [7] 2).1 (by decide),
   (set_buffer_one_shot init [7] 2).2 rfl⟩

/-- **C8** (counterexample).  Capacity is not word-count times word width:
binding a one-word buffer with `set_buffer(buf, 1)` yields `mBufferBits = 8`,
not `1 * 32`; the string constructor on 8 bytes allocates 3 words but sets
`mBufferBits = 24`, not `3 * 32`. -/
theorem capacity_not_word_width :
    (set_buffer init [0] 1).mBufferBits = 8 ∧ (8 : Nat) ≠ 1 * 32 ∧
    (from_string [1, 2, 3, 4, 5, 6, 7, 8]).mBufferBytes = 3 ∧
    (from_string [1, 2, 3, 4, 5, 6, 7, 8]).mBufferBits = 24 ∧ (24 : Nat) ≠ 3 * 32 := by
  decide

/-- **C8** (amended).  After binding, `mBufferBits` is the `size` argument
times 8 (`size` acts as a byte count; the word width never enters), and the
string constructor sets `mBufferBits = mBufferBytes * 8` where `mBufferBytes`
is the word count `(len + 3) / 4 + 1`. -/
theorem set_buffer_capacity_times_eight :
    (∀ (s : bitstream) (buffer : List Nat) (size : Nat),
      s.mBuffer = Option.none → size < 4294967296 →
      (set_buffer s buffer size).mBufferBits = size * 8 % 4294967296 ∧
      (set_buffer s buffer size).mPos = 0) ∧
    (∀ data : List Nat, verify_size (data.length % 4294967296) = true →
      (from_string data).mBufferBits =
        ((data.length + 3) / 4 + 1) % 4294967296 * 8 % 4294967296) := by
  constructor
  · intro s buffer size h hsize
    simp [set_buffer, h, Nat.mod_eq_of_lt hsize]
  · intro data h
    simp [from_string, h]

/-- Witness for the amended C8: binding size 1 gives 8 bits of capacity; the
5-byte string gives `((5+3)/4+1)*8 = 24` bits. -/
theorem set_buffer_capacity_times_eight_witness :
    ((set_buffer init [0] 1).mBufferBits = 1 * 8 % 4294967296 ∧
      (set_buffer init [0] 1).mPos = 0) ∧
    (from_string [9, 9, 9, 9, 9]).mBufferBits =
      ((5 + 3) / 4 + 1) % 4294967296 * 8 % 4294967296 :=
  ⟨set_buffer_capacity_times_eight.1 init [0] 1 rfl (by decide),
   by simpa using set_buffer_capacity_times_eight.2 [9, 9, 9, 9, 9] (by decide)⟩

/-- **C4** (amended).  `seek` alone rejects (by assertion) any position at or
past `mBufferBits` before mutating; `write` and `read` perform no capacity
check and advance `mPos` by `bits` (mod `2^32`) unconditionally whenever their
mode/error asserts pass. -/
theorem seek_checked_write_unchecked :
    (∀ (s : bitstream) (p : Nat), s.mBufferBits ≤ p → seek s p = Option.none) ∧
    (∀ (s : bitstream) (p : Nat), p < s.mBufferBits →
      seek s p = Option.some { s with mPos := p }) ∧
    (∀ (s : bitstream) (bits data : Nat) (t : bitstream),
      write s bits data = Option.some t → t.mPos = (s.mPos + bits) % 4294967296) ∧
    (∀ (s : bitstream) (bits : Nat) (r : Nat × bitstream),
      read s bits = Option.some r → r.2.mPos = (s.mPos + bits) % 4294967296) := by
  refine ⟨fun s p h => ?_, fun s p h => ?_, fun s bits data t h => ?_, fun s bits r h => ?_⟩
  · simp [seek, Nat.not_lt.mpr h]
  · simp [seek, h]
  · unfold write at h
    split at h
    · match hb : s.mBuffer with
      | Option.none => rw [hb] at h; simp at h
      | Option.some buf =>
        rw [hb] at h
        simp only [Option.some.injEq] at h
        rw [← h]
        simpa using write_core_snd buf s.mPos bits data
    · simp at h
  · unfold read at h
    split at h
    · match hb : s.mBuffer with
      | Option.none => rw [hb] at h; simp at h
      | Option.some buf =>
        rw [hb] at h
        simp only [Option.some.injEq] at h
        rw [← h]
        simpa using read_core_snd buf s.mPos bits
    · simp at h

/-- Witness for the amended C4: seeking to 40 on a 32-bit-capacity writer
aborts, seeking to 5 succeeds, and a 32-bit write/read advances the cursor to
32 with no capacity rejection. -/
theorem seek_checked_write_unchecked_witness :
    seek demoW 40 = Option.none ∧
    seek demoW 5 = Option.some { demoW with mPos := 5 } ∧
    ({ demoW with mBuffer := Option.some [0], mPos := 32 } : bitstream).mPos =
      (demoW.mPos + 32) % 4294967296 ∧
    ({ demoR with mPos := 32 } : bitstream).mPos = (demoR.mPos + 32) % 4294967296 :=
  ⟨seek_checked_write_unchecked.1 demoW 40 (by decide),
   seek_checked_write_unchecked.2.1 demoW 5 (by decide),
   seek_checked_write_unchecked.2.2.1 demoW 32 0 _ (by decide),
   seek_checked_write_unchecked.2.2.2 demoR 32 (0, { demoR with mPos := 32 }) (by decide)⟩

/-- **C9** (amended).  The two `write` revisions always produce the same final
cursor, and produce identical storage whenever the bit range stays inside one
word (`start == end`); they differ only in the end word of the straddling
case. -/
theorem write_revisions_agree_single_word (buf : List Nat) (pos bits data : Nat) :
    (write_core buf pos bits data).2 = (write_core_p001 buf pos bits data).2 ∧
    (1 ≤ bits → pos % 32 + bits ≤ 32 → pos + bits ≤ 4294967296 →
      write_core buf pos bits data = write_core_p001 buf pos bits data) := by
  constructor
  · by_cases h : start_index pos = end_index pos bits <;>
      simp [write_core, write_core_p001, h]
  · intro h1 h2 h3
    have he : end_index pos bits = start_index pos := by
      unfold end_index start_index
      omega
    simp [write_core, write_core_p001, he]

/-- Witness for the amended C9: at cursor 3 both revisions land the cursor at
11, and an 8-bit single-word write at cursor 0 gives identical results. -/
theorem write_revisions_agree_single_word_witness :
    (write_core [0, 0] 3 8 171).2 = (write_core_p001 [0, 0] 3 8 171).2 ∧
    write_core [0, 0] 0 8 171 = write_core_p001 [0, 0] 0 8 171 :=
  ⟨(write_revisions_agree_single_word [0, 0] 3 8 171).1,
   (write_revisions_agree_single_word [0, 0] 0 8 171).2 (by decide) (by decide) (by decide)⟩

/-- **C10** (amended).  `write(0, v)` and `read(0)` leave the cursor where it
is, and `read(0)` at an unaligned cursor returns 0 without touching anything;
but `write(0, v)` at an unaligned cursor still rewrites the start word as
`(w & masks[shift]) | (v << shift)`, and at a word-aligned cursor the end-word
index underflows to `pos/32 - 1` (and to `134217727` at cursor 0, out of
bounds for any plausible buffer). -/
theorem zero_bits_behavior :
    (∀ (buf : List Nat) (pos v : Nat), pos % 32 ≠ 0 → pos + 1 ≤ 4294967296 →
      write_core buf pos 0 v =
        (buf.set (pos / 32) ((buf.getD (pos / 32) 0 &&& masks (pos % 32)) |||
          ((v <<< (pos % 32)) % 4294967296)), pos) ∧
      read_core buf pos 0 = (0, pos)) ∧
    (∀ pos : Nat, pos % 32 = 0 → 0 < pos → pos < 4294967296 →
      end_index pos 0 = pos / 32 - 1) ∧
    end_index 0 0 = 134217727 := by
  refine ⟨fun buf pos v h h2 => ?_, fun pos h1 h2 h3 => ?_, by decide⟩
  · have he : end_index pos 0 = start_index pos := by
      unfold end_index start_index
      omega
    have hp : (pos + 0) % 4294967296 = pos := by omega
    constructor
    · simp [write_core, he, hp, start_index]
      omega
    · simp [read_core, he, hp, start_index, masks]
      omega
  · unfold end_index
    omega

/-- Witness for the amended C10: at cursor 1 over `[0xFFFFFFFF]`, `write(0,0)`
rewrites the word to 1 and keeps the cursor, `read(0)` returns 0 and keeps the
cursor; at the aligned cursor 32 the end index underflows to word 0. -/
theorem zero_bits_behavior_witness :
    (write_core [4294967295] 1 0 0 = ([1], 1) ∧ read_core [4294967295] 1 0 = (0, 1)) ∧
    end_index 32 0 = 0 ∧ end_index 0 0 = 134217727 :=
  ⟨by simpa using zero_bits_behavior.1 [4294967295] 1 0 (by decide) (by decide),
   zero_bits_behavior.2.1 32 (by decide) (by decide) (by decide),
   zero_bits_behavior.2.2⟩

theorem getD_set_self (l : List Nat) (i a : Nat) (h : i < l.length) :
    (l.set i a).getD i 0 = a := by
  simp [List.getD_eq_getElem?_getD, List.getElem?_set_self h]

theorem getD_set_ne (l : List Nat) (i j a : Nat) (h : i ≠ j) :
    (l.set i a).getD j 0 = l.getD j 0 := by
  simp [List.getD_eq_getElem?_getD, List.getElem?_set_ne h]

/-- Unpacking a single-word packed field recovers the value: reading the word
`(w & (2^s-1)) | (v << s)` back at shift `s` under an `n`-bit mask yields `v`,
for `s + n ≤ 32` and `v < 2^n`. -/
theorem pack_unpack_single (w v s n : Nat) (hs : s + n ≤ 32) (hv : v < 2 ^ n) :
    (((w &&& (2 ^ s - 1)) ||| ((v <<< s) % 4294967296)) >>> s) &&& (2 ^ n - 1) = v := by
  have e32 : (4294967296 : Nat) = 2 ^ 32 := by norm_num
  rw [e32]
  apply Nat.eq_of_testBit_eq
  intro i
  simp only [Nat.testBit_and, Nat.testBit_or, Nat.testBit_shiftRight,
    Nat.testBit_shiftLeft, Nat.testBit_mod_two_pow, Nat.testBit_two_pow_sub_one,
    Nat.add_sub_cancel_left, ge_iff_le, Nat.le_add_right, decide_True, Bool.true_and]
  by_cases hi : i < n
  · have h1 : ¬ (s + i < s) := by omega
    have h2 : s + i < 32 := by omega
    simp [hi, h1, h2]
  · have hv2 : v < 2 ^ i := lt_of_lt_of_le hv (Nat.pow_le_pow_right (by norm_num) (by omega))
    simp [hi, Nat.testBit_lt_two_pow hv2]

/-- Unpacking a field that straddles two words recovers the value: combining
the high part of the start word with the low part of the end word as `read`
does yields `v` back, for `s < 32 ≤ s + n - 1` and `v < 2^n`. -/
theorem pack_unpack_straddle (w v s n : Nat) (hs : s < 32) (h33 : 33 ≤ s + n)
    (hn : n ≤ 32) (hv : v < 2 ^ n) :
    ((((w &&& (2 ^ s - 1)) ||| ((v <<< s) % 4294967296)) >>> s) |||
      ((((v >>> (32 - s)) &&& (2 ^ (n + s - 32) - 1)) <<< (32 - s)) % 4294967296)) &&&
      (2 ^ n - 1) = v := by
  have e32 : (4294967296 : Nat) = 2 ^ 32 := by norm_num
  rw [e32]
  apply Nat.eq_of_testBit_eq
  intro i
  simp only [Nat.testBit_and, Nat.testBit_or, Nat.testBit_shiftRight,
    Nat.testBit_shiftLeft, Nat.testBit_mod_two_pow, Nat.testBit_two_pow_sub_one,
    Nat.add_sub_cancel_left, ge_iff_le, Nat.le_add_right, decide_True, Bool.true_and]
  by_cases hi : i < n
  · have h1 : ¬ (s + i < s) := by omega
    have hi32 : i < 32 := by omega
    by_cases hlo : s + i < 32
    · have h2 : ¬ (32 - s ≤ i) := by omega
      simp [hi, h1, hlo, h2, hi32]
    · have h2 : 32 - s ≤ i := by omega
      have h3 : 32 - s + (i - (32 - s)) = i := by omega
      have h4 : i - (32 - s) < n + s - 32 := by omega
      simp [hi, h1, hlo, h2, hi32, h3, h4]
  · have hv2 : v < 2 ^ i := lt_of_lt_of_le hv (Nat.pow_le_pow_right (by norm_num) (by omega))
    simp [hi, Nat.testBit_lt_two_pow hv2]

/-- **C1** (confirmed).  Round-trip: for every bit count `n ∈ [1,32]`, every
value `v < 2^n` and every valid starting cursor position (`pos + n` within the
word array, `uint32_t` domain), writing `v` with `write(n, v)` and reading
`read(n)` from the same starting position returns exactly `v` — including
positions where the range straddles a word boundary. -/
theorem write_read_round_trip (buf : List Nat) (pos n v : Nat)
    (h1 : 1 ≤ n) (h2 : n ≤ 32) (hv : v < 2 ^ n)
    (hcap : pos + n ≤ 32 * buf.length) (hU : pos + n ≤ 4294967296) :
    (read_core (write_core buf pos n v).1 pos n).1 = v := by
  have hstart_lt : pos / 32 < buf.length := by omega
  have hmn : masks n = 2 ^ n - 1 := by unfold masks; rw [if_pos (by omega)]
  have hms : masks (pos % 32) = 2 ^ (pos % 32) - 1 := by
    unfold masks; rw [if_pos (by omega)]
  by_cases hc : pos % 32 + n ≤ 32
  · have he : end_index pos n = start_index pos := by
      unfold end_index start_index
      omega
    simp only [write_core, read_core, he, start_index, if_pos]
    rw [getD_set_self _ _ _ hstart_lt, hms, hmn]
    exact pack_unpack_single _ v (pos % 32) n (by omega) hv
  · have he : end_index pos n = start_index pos + 1 := by
      unfold end_index start_index
      omega
    have hend_lt : start_index pos + 1 < buf.length := by
      unfold start_index
      omega
    have hcc : ¬ (pos / 32 = pos / 32 + 1) := by omega
    have hidx : (n + pos % 32 + 4294967264) % 4294967296 = n + pos % 32 - 32 := by omega
    have hmidx : masks (n + pos % 32 - 32) = 2 ^ (n + pos % 32 - 32) - 1 := by
      unfold masks; rw [if_pos (by omega)]
    simp only [write_core, read_core, he, start_index, hidx, if_neg hcc]
    rw [getD_set_ne _ _ _ _ (by omega)]
    rw [getD_set_self _ _ _ (by simpa using hstart_lt)]
    rw [getD_set_self _ _ _ (by simpa using hend_lt)]
    rw [hms, hmn, hmidx]
    exact pack_unpack_straddle _ v (pos % 32) n (by omega) (by omega) h2 hv

/-- Witness for C1 at a boundary-straddling position: writing 4 bits of 13 at
cursor 30 of a two-word buffer (bits 30..33 cross the word boundary) and
reading them back yields 13. -/
theorem write_read_round_trip_witness :
    (read_core (write_core [0, 0] 30 4 13).1 30 4).1 = 13 :=
  write_read_round_trip [0, 0] 30 4 13 (by decide) (by decide) (by decide)
    (by decide) (by decide)

theorem getD_default (l : List Nat) (i : Nat) (h : l.length ≤ i) :
    l.getD i 0 = 0 := by
  simp [List.getD_eq_getElem?_getD, List.getElem?_eq_none h]

/-- A value below `2^k` is untouched by masking with any mask whose low `k`
bits are all set. -/
theorem and_mask_eq_self (w K k : Nat) (hw : w < 2 ^ k)
    (hK : (2 ^ k - 1) &&& K = 2 ^ k - 1) : w &&& K = w := by
  conv_lhs => rw [← Nat.and_pow_two_sub_one_of_lt_two_pow hw]
  rw [Nat.and_assoc, hK, Nat.and_pow_two_sub_one_of_lt_two_pow hw]

theorem lor_lt_two_pow (x y k : Nat) (hx : x < 2 ^ k) (hy : y < 2 ^ k) :
    x ||| y < 2 ^ k := by
  apply Nat.lt_pow_two_of_testBit
  intro i hi
  rw [Nat.testBit_or,
    Nat.testBit_lt_two_pow (lt_of_lt_of_le hx (Nat.pow_le_pow_right (by norm_num) hi)),
    Nat.testBit_lt_two_pow (lt_of_lt_of_le hy (Nat.pow_le_pow_right (by norm_num) hi))]
  rfl

/-- One step of the fast/slow agreement: at a byte-aligned cursor over storage
with no set bits at or above the cursor, an 8-bit `write` of a byte below 128
stores exactly the byte that `memcpy` would store. -/
theorem step_buf (buf : List Nat) (pos b : Nat) (hal : pos % 8 = 0) (hb : b < 128)
    (hU : pos + 8 ≤ 4294967296)
    (hz : buf.getD (pos / 32) 0 < 2 ^ (pos % 32)) :
    (write_core buf pos 8 (signext b)).1 = setByte buf (pos / 8) b := by
  have hsx : signext b = b := if_pos hb
  have he : end_index pos 8 = start_index pos := by
    unfold end_index start_index
    omega
  have hd : pos / 8 / 4 = pos / 32 := by omega
  have ho : 8 * (pos / 8 % 4) = pos % 32 := by omega
  simp only [write_core, setByte, he, start_index, if_pos, hsx, hd, ho]
  congr 2
  have hcase : pos % 32 = 0 ∨ pos % 32 = 8 ∨ pos % 32 = 16 ∨ pos % 32 = 24 := by omega
  rcases hcase with h | h | h | h <;> rw [h] at hz ⊢
  · have h0 : buf.getD (pos / 32) 0 = 0 := by omega
    rw [h0]
    simp [masks]
  · rw [show masks 8 = 2 ^ 8 - 1 from rfl,
      Nat.and_pow_two_sub_one_of_lt_two_pow hz,
      and_mask_eq_self _ _ 8 hz (by decide)]
  · rw [show masks 16 = 2 ^ 16 - 1 from rfl,
      Nat.and_pow_two_sub_one_of_lt_two_pow hz,
      and_mask_eq_self _ _ 16 hz (by decide)]
  · rw [show masks 24 = 2 ^ 24 - 1 from rfl,
      Nat.and_pow_two_sub_one_of_lt_two_pow hz,
      and_mask_eq_self _ _ 24 hz (by decide)]

/-- The byte store of `memcpy` preserves `zeroAbove` as the cursor moves one
byte on. -/
theorem step_zero (buf : List Nat) (pos b : Nat) (hal : pos % 8 = 0) (hb : b < 128)
    (hz : zeroAbove buf pos) : zeroAbove (setByte buf (pos / 8) b) (pos + 8) := by
  obtain ⟨hz1, hz2⟩ := hz
  have hd : pos / 8 / 4 = pos / 32 := by omega
  have ho : 8 * (pos / 8 % 4) = pos % 32 := by omega
  have hW : (buf.getD (pos / 32) 0 &&& (4294967295 - (255 <<< (pos % 32)))) |||
      ((b <<< (pos % 32)) % 4294967296) < 2 ^ (pos % 32 + 8) := by
    apply lor_lt_two_pow
    · calc buf.getD (pos / 32) 0 &&& (4294967295 - (255 <<< (pos % 32)))
          ≤ buf.getD (pos / 32) 0 := Nat.and_le_left
        _ < 2 ^ (pos % 32) := hz1
        _ ≤ 2 ^ (pos % 32 + 8) := Nat.pow_le_pow_right (by norm_num) (by omega)
    · calc (b <<< (pos % 32)) % 4294967296 ≤ b <<< (pos % 32) := Nat.mod_le _ _
        _ = b * 2 ^ (pos % 32) := Nat.shiftLeft_eq b (pos % 32)
        _ < 2 ^ 8 * 2 ^ (pos % 32) := by
            have := Nat.two_pow_pos (pos % 32)
            have hb2 : b < 2 ^ 8 := by omega
            exact Nat.mul_lt_mul_of_lt_of_le hb2 (le_refl _) this
        _ = 2 ^ (pos % 32 + 8) := by rw [← Nat.pow_add, Nat.add_comm]
  constructor
  · by_cases hs24 : pos % 32 = 24
    · have e1 : (pos + 8) / 32 = pos / 32 + 1 := by omega
      have e2 : (pos + 8) % 32 = 0 := by omega
      rw [e1, e2, setByte, hd, getD_set_ne _ _ _ _ (by omega)]
      by_cases hlen : pos / 32 + 1 < buf.length
      · rw [hz2 _ hlen (by omega)]
        exact Nat.one_pos
      · rw [getD_default _ _ (by omega)]
        exact Nat.one_pos
    · have e1 : (pos + 8) / 32 = pos / 32 := by omega
      have e2 : (pos + 8) % 32 = pos % 32 + 8 := by omega
      rw [e1, e2, setByte, hd, ho]
      by_cases hlen : pos / 32 < buf.length
      · rw [getD_set_self _ _ _ hlen]
        exact hW
      · rw [List.set_eq_of_length_le (by omega), getD_default _ _ (by omega)]
        exact Nat.two_pow_pos _
  · intro i hi hgt
    have hlen2 : i < buf.length := by simpa [setByte] using hi
    have hne : pos / 8 / 4 ≠ i := by omega
    rw [setByte, getD_set_ne _ _ _ _ hne]
    exact hz2 i hlen2 (by omega)

/-- **C7** (amended).  At a byte-aligned cursor, the memcpy fast path of
`write_bytes` and its slow path of successive `write(8, data[i])` calls
produce identical storage, provided the storage has no set bits at or above
the cursor (e.g. a fresh zero buffer) and every byte is below 128; in general
the two paths differ (the slow path clears the bits above the written field
and sign-extends bytes at or above 128 — see the counterexample). -/
theorem write_bytes_fast_slow_agree_on_zero (data : List Nat) :
    ∀ (buf : List Nat) (pos : Nat), pos % 8 = 0 → (∀ b ∈ data, b < 128) →
    zeroAbove buf pos → pos + 8 * data.length < 4294967296 →
    memcpy_write buf (pos / 8) data = (write_bytes_slow buf pos data).1 := by
  induction data with
  | nil => intro buf pos _ _ _ _; rfl
  | cons b rest ih =>
    intro buf pos hal hb hz hU
    have hb0 : b < 128 := hb b (List.mem_cons_self b rest)
    have hstep := step_buf buf pos b hal hb0 (by simp [List.length_cons] at hU; omega) hz.1
    have hpos : (write_core buf pos 8 (signext b)).2 = pos + 8 := by
      rw [write_core_snd]
      have : pos + 8 < 4294967296 := by simp [List.length_cons] at hU; omega
      omega
    simp only [memcpy_write, write_bytes_slow]
    rw [hstep, hpos]
    have hoff : pos / 8 + 1 = (pos + 8) / 8 := by omega
    rw [hoff]
    exact ih (setByte buf (pos / 8) b) (pos + 8) (by omega)
      (fun c hc => hb c (List.mem_cons_of_mem b hc))
      (step_zero buf pos b hal hb0 hz)
      (by simp [List.length_cons] at hU; omega)

/-- Witness for the amended C7: three bytes below 128 written at the aligned
cursor 8 of a fresh two-word zero buffer give the same storage on the memcpy
path and the repeated-`write(8, b)` path. -/
theorem write_bytes_fast_slow_agree_on_zero_witness :
    memcpy_write [0, 0] 1 [5, 6, 7] = (write_bytes_slow [0, 0] 8 [5, 6, 7]).1 :=
  write_bytes_fast_slow_agree_on_zero [5, 6, 7] [0, 0] 8 (by decide) (by decide)
    (by decide) (by decide)

end bitstream
